import Mathlib

/-!
Verification of the volcengine speech plugin (stt.py / tts.py).

The binary frame codec, the recognition-session sequence counter and event
loop, and the two synthesis sessions are embedded shallowly: bytes are
natural numbers below 256 in lists, Python integers are Int/Nat, Python
exceptions are Option/explicit outcome values, and the external gzip / json
libraries are parameters (a `Codecs` record) with inverse hypotheses where a
round trip needs them.
-/

/-! ## Protocol constants (stt.py lines 17-40) -/

def PROTOCOL_VERSION : Nat := 1

def DEFAULT_HEADER_SIZE : Nat := 1

def FULL_CLIENT_REQUEST : Nat := 1

def AUDIO_ONLY_REQUEST : Nat := 2

def FULL_SERVER_RESPONSE : Nat := 9

def SERVER_ACK : Nat := 11

def SERVER_ERROR_RESPONSE : Nat := 15

def NO_SEQUENCE : Nat := 0

def POS_SEQUENCE : Nat := 1

def NEG_SEQUENCE : Nat := 2

def NEG_WITH_SEQUENCE : Nat := 3

def NO_SERIALIZATION : Nat := 0

def JSON_SERIAL : Nat := 1

def NO_COMPRESSION : Nat := 0

def GZIP_COMP : Nat := 1

/-! ## Byte-level integer conversions

Python `n.to_bytes(4, 'big')` / `int.from_bytes(bs, 'big', signed=...)`.
`int.from_bytes` accepts any length (including fewer than requested by a
short slice) and interprets the bytes it gets; the signed variant uses the
actual byte count for the sign threshold. -/

def natToBytesBE : Nat → Nat → List Nat
  | 0, _ => []
  | k + 1, n => natToBytesBE k (n / 256) ++ [n % 256]

def beVal : List Nat → Nat
  | [] => 0
  | b :: bs => b * 256 ^ bs.length + beVal bs

/-- Python int.from_bytes(bs, 'big', signed=True): two's complement over the
actual number of bytes present; the empty slice decodes to 0. -/
def intFromBytesSigned (bs : List Nat) : Int :=
  if bs.length = 0 then 0
  else if beVal bs < 2 ^ (8 * bs.length - 1) then (beVal bs : Int)
  else (beVal bs : Int) - 2 ^ (8 * bs.length)

/-- Python sequence.to_bytes(4, 'big', signed=True) for an in-range int32,
expressed by reducing modulo 2^32 first (equal on the valid domain). -/
def intToBytes4Signed (i : Int) : List Nat :=
  natToBytesBE 4 (i % 4294967296).toNat

theorem natToBytesBE_length (k n : Nat) : (natToBytesBE k n).length = k := by
  induction k generalizing n with
  | zero => rfl
  | succ k ih => simp [natToBytesBE, ih]

theorem beVal_append_one (xs : List Nat) (b : Nat) :
    beVal (xs ++ [b]) = beVal xs * 256 + b := by
  induction xs with
  | nil => simp [beVal]
  | cons x xs ih => simp [beVal, ih]; ring

theorem mod_mul_split (n m : Nat) (hm : 0 < m) :
    n % (m * 256) = (n / 256 % m) * 256 + n % 256 := by
  have h1 : n = n / 256 * 256 + n % 256 := by omega
  have h2 : n / 256 = m * (n / 256 / m) + n / 256 % m := by
    have := Nat.div_add_mod (n / 256) m
    omega
  have hlt : n / 256 % m * 256 + n % 256 < m * 256 := by
    have ha : n / 256 % m < m := Nat.mod_lt _ hm
    have hb : n % 256 < 256 := Nat.mod_lt _ (by omega)
    calc n / 256 % m * 256 + n % 256 < n / 256 % m * 256 + 256 := by omega
      _ = (n / 256 % m + 1) * 256 := by ring
      _ ≤ m * 256 := Nat.mul_le_mul_right _ (by omega)
  calc n % (m * 256)
      = (n / 256 * 256 + n % 256) % (m * 256) := by rw [← h1]
    _ = ((m * (n / 256 / m) + n / 256 % m) * 256 + n % 256) % (m * 256) := by
        rw [← h2]
    _ = (n / 256 % m * 256 + n % 256 + n / 256 / m * (m * 256)) % (m * 256) := by
        ring_nf
    _ = (n / 256 % m * 256 + n % 256) % (m * 256) := by
        rw [Nat.add_mul_mod_self_right]
    _ = n / 256 % m * 256 + n % 256 := Nat.mod_eq_of_lt hlt

theorem beVal_natToBytesBE (k n : Nat) : beVal (natToBytesBE k n) = n % 256 ^ k := by
  induction k generalizing n with
  | zero => simp [natToBytesBE, beVal, Nat.mod_one]
  | succ k ih =>
      rw [natToBytesBE, beVal_append_one, ih]
      have : (256 : Nat) ^ (k + 1) = 256 ^ k * 256 := by ring
      rw [this, mod_mul_split n (256 ^ k) (Nat.pos_pow_of_pos k (by omega))]

theorem beVal_natToBytesBE_of_lt (n : Nat) (h : n < 4294967296) :
    beVal (natToBytesBE 4 n) = n := by
  rw [beVal_natToBytesBE]
  exact Nat.mod_eq_of_lt (by norm_num; omega)

theorem intFromBytesSigned_intToBytes4Signed (i : Int)
    (h1 : -(2 ^ 31) ≤ i) (h2 : i < 2 ^ 31) :
    intFromBytesSigned (intToBytes4Signed i) = i := by
  have hlo : (0 : Int) ≤ i % 4294967296 := Int.emod_nonneg i (by norm_num)
  have hhi : i % 4294967296 < 4294967296 := Int.emod_lt_of_pos i (by norm_num)
  have hn : (i % 4294967296).toNat < 4294967296 := by omega
  have hval : beVal (natToBytesBE 4 (i % 4294967296).toNat)
      = (i % 4294967296).toNat := beVal_natToBytesBE_of_lt _ hn
  have hemod : i % 4294967296 = i ∨ i % 4294967296 = i + 4294967296 := by
    rcases le_or_lt 0 i with hpos | hneg
    · left
      exact Int.emod_eq_of_lt hpos (by norm_num at h2 ⊢; omega)
    · right
      have h : (i + 4294967296) % 4294967296 = i % 4294967296 := by
        conv_lhs => rw [show i + 4294967296 = i + 4294967296 * 1 by ring]
        rw [Int.add_mul_emod_self_left]
      rw [← h]
      exact Int.emod_eq_of_lt (by norm_num at h1 ⊢; omega) (by norm_num at h2 ⊢; omega)
  norm_num at h1 h2
  unfold intFromBytesSigned intToBytes4Signed
  simp only [natToBytesBE_length, hval]
  norm_num
  split_ifs with hc
  · omega
  · omega

/-! ## List slicing helpers (Python slice semantics on exact-length parts) -/

theorem take_len_append (l1 l2 : List Nat) : (l1 ++ l2).take l1.length = l1 := by
  induction l1 with
  | nil => rfl
  | cons a l ih => simp [ih]

theorem drop_len_append (l1 l2 : List Nat) : (l1 ++ l2).drop l1.length = l2 := by
  induction l1 with
  | nil => rfl
  | cons a l ih => simp [ih]

theorem take4_append (l1 l2 : List Nat) (h : l1.length = 4) :
    (l1 ++ l2).take 4 = l1 := by rw [← h]; exact take_len_append l1 l2

theorem drop4_append (l1 l2 : List Nat) (h : l1.length = 4) :
    (l1 ++ l2).drop 4 = l2 := by rw [← h]; exact drop_len_append l1 l2

/-! ## External gzip / json libraries as parameters

gzip and json are external collaborators of the codec; the codec only
composes them. They appear as a record of functions, with left-inverse
hypotheses supplied where a claim needs a round trip. -/

structure Codecs (J : Type) where
  compress : List Nat → List Nat
  decompress : List Nat → Option (List Nat)
  dumps : J → List Nat
  loads : List Nat → Option J
  utf8decode : List Nat → Option String

/-- Decoded payload value: raw bytes (no serialization), a parsed JSON value,
or a utf-8 string (any other nonzero serialization code). -/
inductive PMsg (J : Type) where
  | bytes (b : List Nat)
  | json (j : J)
  | str (s : String)
deriving DecidableEq

/-- The dict returned by SpeechStream._parse_response (stt.py lines
197-228): is_last_package, the optional leading sequence, the ServerAck
sequence echo, the ServerErrorResponse code, the decoded payload and the
payload_size local (an int: read signed for FullServerResponse, unsigned
elsewhere). -/
structure ParseResult (J : Type) where
  is_last_package : Bool
  payload_sequence : Option Int
  seq : Option Int
  code : Option Nat
  payload_msg : PMsg J
  payload_size : Int
deriving DecidableEq

/-- Branch on message type (stt.py lines 206-219). Returns
(payload_size, raw payload bytes, seq echo, error code); `none` models the
paths on which Python leaves payload_msg / payload_size unassigned, so that
line 220/222/226 raises UnboundLocalError before any result is returned. -/
def branchFields (message_type : Nat) (payload : List Nat) :
    Option (Int × List Nat × Option Int × Option Nat) :=
  if message_type = FULL_SERVER_RESPONSE then
    some (intFromBytesSigned (payload.take 4), payload.drop 4, none, none)
  else if message_type = SERVER_ACK then
    let s := intFromBytesSigned (payload.take 4)
    if 8 ≤ payload.length then
      some ((beVal ((payload.drop 4).take 4) : Int), payload.drop 8, some s, none)
    else none
  else if message_type = SERVER_ERROR_RESPONSE then
    some ((beVal ((payload.drop 4).take 4) : Int), payload.drop 8, none,
      some (beVal (payload.take 4)))
  else none

/-- gzip.decompress applied iff the compression nibble is GZIP (stt.py
lines 220-221). -/
def decompressStep {J : Type} (C : Codecs J) (comp : Nat) (b : List Nat) :
    Option (List Nat) :=
  if comp = GZIP_COMP then C.decompress b else some b

/-- Deserialization applied after decompression (stt.py lines 222-225):
JSON parse for code 1, utf-8 decode for any other nonzero code, raw bytes
for code 0. -/
def deserializeStep {J : Type} (C : Codecs J) (ser : Nat) (b : List Nat) :
    Option (PMsg J) :=
  if ser = JSON_SERIAL then (C.loads b).map PMsg.json
  else if ser ≠ NO_SERIALIZATION then (C.utf8decode b).map PMsg.str
  else some (PMsg.bytes b)

/-- SpeechStream._parse_response (stt.py lines 187-228). Indexing res[0..3]
raises IndexError on a buffer shorter than 4 bytes, modelled by the
catch-all `none` arm; all other Python exceptions on the way (unassigned
payload variables, gzip or json failures) are `none` as well. -/
def parse_response {J : Type} (C : Codecs J) : List Nat → Option (ParseResult J)
  | res@(b0 :: b1 :: b2 :: _b3 :: _) =>
    let header_size := b0 % 16
    let message_type := b1 / 16
    let flags := b1 % 16
    let ser := b2 / 16
    let comp := b2 % 16
    let payload0 := res.drop (header_size * 4)
    let pseq : Option Int :=
      if flags % 2 = 1 then some (intFromBytesSigned (payload0.take 4)) else none
    let payload1 := if flags % 2 = 1 then payload0.drop 4 else payload0
    let is_last : Bool := flags / 2 % 2 = 1
    match branchFields message_type payload1 with
    | none => none
    | some (psize, raw, seqEcho, code) =>
      match decompressStep C comp raw with
      | none => none
      | some dec =>
        match deserializeStep C ser dec with
        | none => none
        | some m => some ⟨is_last, pseq, seqEcho, code, m, psize⟩
  | _ => none

/-! ## Frame encoding (stt.py lines 95-134, 166-185) -/

/-- SpeechStream._generate_header (stt.py lines 166-180): the fixed 4-byte
header with protocol version 1 and header size 1. -/
def generate_header (message_type message_type_specific_flags serial_method
    compression_type reserved_data : Nat) : List Nat :=
  [(PROTOCOL_VERSION <<< 4) ||| 1,
   (message_type <<< 4) ||| message_type_specific_flags,
   (serial_method <<< 4) ||| compression_type,
   reserved_data]

/-- SpeechStream._generate_before_payload (stt.py lines 182-185): the
4-byte signed big-endian sequence field. -/
def generate_before_payload (sequence : Int) : List Nat :=
  intToBytes4Signed sequence

/-- Frame assembly as performed by _send_full_client_request and
_send_audio_chunk (stt.py lines 95-134): optionally compressed payload,
header, sequence field when flag bit 0 is set, 4-byte length prefix, then
the payload bytes. -/
def encodeFrame {J : Type} (C : Codecs J) (message_type flags ser comp : Nat)
    (seq : Int) (payload : List Nat) : List Nat :=
  let pb := if comp = GZIP_COMP then C.compress payload else payload
  generate_header message_type flags ser comp 0 ++
    (if flags % 2 = 1 then generate_before_payload seq else []) ++
    natToBytesBE 4 pb.length ++ pb

/-- Concrete codec instance for witnesses and counterexamples: identity
compression and identity serialization over byte lists. -/
def trivCodecs : Codecs (List Nat) :=
  ⟨id, some, id, some, fun _ => some ""⟩

/-! ## Derived slicing lemmas for the encoded frame layout -/

theorem gbp_length (seq : Int) : (generate_before_payload seq).length = 4 := by
  simp [generate_before_payload, intToBytes4Signed, natToBytesBE_length]

theorem take4_gbp (seq : Int) (rest : List Nat) :
    ((generate_before_payload seq ++ rest).take 4) = generate_before_payload seq :=
  take4_append _ _ (gbp_length seq)

theorem drop4_gbp (seq : Int) (rest : List Nat) :
    ((generate_before_payload seq ++ rest).drop 4) = rest :=
  drop4_append _ _ (gbp_length seq)

theorem take4_nb4 (n : Nat) (rest : List Nat) :
    ((natToBytesBE 4 n ++ rest).take 4) = natToBytesBE 4 n :=
  take4_append _ _ (natToBytesBE_length 4 n)

theorem drop4_nb4 (n : Nat) (rest : List Nat) :
    ((natToBytesBE 4 n ++ rest).drop 4) = rest :=
  drop4_append _ _ (natToBytesBE_length 4 n)

theorem ifbs_gbp (seq : Int) (h1 : -(2 ^ 31) ≤ seq) (h2 : seq < 2 ^ 31) :
    intFromBytesSigned (generate_before_payload seq) = seq :=
  intFromBytesSigned_intToBytes4Signed seq h1 h2

/-- C1 counterexample: the round trip fails on valid message types. A
FullClientRequest frame (type 0b0001, PosSequence, no serialization, no
compression, sequence 1, payload [42]) makes the decoder raise instead of
returning the header fields, sequence and payload: _parse_response has no
branch for client message types, so payload_msg is never assigned. A
ServerAck frame built by the same encode composition decodes to the wrong
payload: the decoder consumes a leading 4-byte sequence echo and a second
length field that encode never produced, returning bytes [5,6,7,8] instead
of the original payload [1,2,3,4,5,6,7,8]. -/
theorem c1_counterexample :
    parse_response trivCodecs
        (encodeFrame trivCodecs FULL_CLIENT_REQUEST POS_SEQUENCE
          NO_SERIALIZATION NO_COMPRESSION 1 [42]) = none ∧
    (parse_response trivCodecs
        (encodeFrame trivCodecs SERVER_ACK NO_SEQUENCE
          NO_SERIALIZATION NO_COMPRESSION 0 [1, 2, 3, 4, 5, 6, 7, 8])).map
        ParseResult.payload_msg = some (PMsg.bytes [5, 6, 7, 8]) ∧
    PMsg.bytes (J := List Nat) [5, 6, 7, 8] ≠ PMsg.bytes [1, 2, 3, 4, 5, 6, 7, 8] := by
  refine ⟨by decide, by decide, by decide⟩

/-- C1 (amended): the decode/encode round trip holds exactly for message
type FullServerResponse, for every sequence flag, serialization and
compression combination, given that gzip decompression inverts gzip
compression and json loads inverts json dumps: the decoder returns the
original sequence number (when flag bit 0 is set), the terminal marker
(flag bit 1) and the original payload. Header fields are parsed but are
not part of the returned dict, and client message types make the decoder
raise (see the counterexample). -/
theorem c1_roundtrip_full_server_response {J : Type} (C : Codecs J)
    (hD : ∀ bs, C.decompress (C.compress bs) = some bs)
    (hL : ∀ j, C.loads (C.dumps j) = some j)
    (flags ser comp : Nat) (hf : flags < 4) (hs : ser < 2) (hc : comp < 2)
    (seq : Int) (hs1 : -(2 ^ 31) ≤ seq) (hs2 : seq < 2 ^ 31)
    (j : J) (b : List Nat) :
    ∃ r, parse_response C (encodeFrame C FULL_SERVER_RESPONSE flags ser comp seq
        (if ser = JSON_SERIAL then C.dumps j else b)) = some r ∧
      r.payload_msg = (if ser = JSON_SERIAL then PMsg.json j else PMsg.bytes b) ∧
      r.payload_sequence = (if flags % 2 = 1 then some seq else none) ∧
      r.is_last_package = decide (flags / 2 % 2 = 1) ∧
      r.seq = none ∧ r.code = none := by
  interval_cases flags <;> interval_cases ser <;> interval_cases comp <;>
    simp [encodeFrame, parse_response, generate_header, branchFields, decompressStep,
      deserializeStep, take4_gbp, drop4_gbp, take4_nb4, drop4_nb4,
      ifbs_gbp seq hs1 hs2, hD, hL, FULL_SERVER_RESPONSE, SERVER_ACK,
      SERVER_ERROR_RESPONSE, GZIP_COMP, JSON_SERIAL, NO_SERIALIZATION, PROTOCOL_VERSION]

/-- C1 witness: the amended round trip evaluated at a concrete frame
(PosSequence, JSON serialization, gzip compression, sequence 7,
payload [10, 20]) under the identity codec instance. -/
theorem c1_roundtrip_witness :
    ∃ r, parse_response trivCodecs (encodeFrame trivCodecs FULL_SERVER_RESPONSE
        POS_SEQUENCE JSON_SERIAL GZIP_COMP 7
        (if JSON_SERIAL = JSON_SERIAL then trivCodecs.dumps [10, 20] else [99]))
        = some r ∧
      r.payload_msg = (if JSON_SERIAL = JSON_SERIAL then
        PMsg.json [10, 20] else PMsg.bytes [99]) ∧
      r.payload_sequence = (if POS_SEQUENCE % 2 = 1 then some 7 else none) ∧
      r.is_last_package = decide (POS_SEQUENCE / 2 % 2 = 1) ∧
      r.seq = none ∧ r.code = none :=
  c1_roundtrip_full_server_response trivCodecs (fun _ => rfl) (fun _ => rfl)
    POS_SEQUENCE JSON_SERIAL GZIP_COMP (by decide) (by decide) (by decide)
    7 (by decide) (by decide) [10, 20] [99]

/-- C3: every frame the recognition session encodes has header byte 0 equal
to (protocol version 1 shifted left 4) or-ed with header size 1, byte 1 the
message-type nibble over the sequence-flag nibble, byte 2 the serialization
nibble over the compression nibble, byte 3 zero; and when sequence-flag bit
0 is set the 4 bytes after the header decode, as a signed big-endian 32-bit
integer, to the sequence number. -/
theorem c3_header_layout {J : Type} (C : Codecs J)
    (mt flags ser comp : Nat) (hm : mt < 16) (hf : flags < 16)
    (hs : ser < 16) (hc : comp < 16)
    (seq : Int) (h1 : -(2 ^ 31) ≤ seq) (h2 : seq < 2 ^ 31) (payload : List Nat) :
    (encodeFrame C mt flags ser comp seq payload).get? 0
        = some ((PROTOCOL_VERSION <<< 4) ||| DEFAULT_HEADER_SIZE) ∧
    (encodeFrame C mt flags ser comp seq payload).get? 1
        = some ((mt <<< 4) ||| flags) ∧
    (encodeFrame C mt flags ser comp seq payload).get? 2
        = some ((ser <<< 4) ||| comp) ∧
    (encodeFrame C mt flags ser comp seq payload).get? 3 = some 0 ∧
    (flags % 2 = 1 → intFromBytesSigned
        (((encodeFrame C mt flags ser comp seq payload).drop 4).take 4) = seq) := by
  refine ⟨?_, ?_, ?_, ?_, fun hbit => ?_⟩ <;>
    simp [encodeFrame, generate_header, PROTOCOL_VERSION, DEFAULT_HEADER_SIZE]
  rw [if_pos hbit, take4_gbp]
  exact ifbs_gbp seq h1 h2

/-- C3 witness: the header-layout theorem evaluated on a concrete
AudioOnlyRequest frame with PosSequence, JSON serialization, gzip
compression and sequence 5. -/
theorem c3_header_layout_witness :
    (encodeFrame trivCodecs AUDIO_ONLY_REQUEST POS_SEQUENCE JSON_SERIAL
        GZIP_COMP 5 [1, 2]).get? 0
        = some ((PROTOCOL_VERSION <<< 4) ||| DEFAULT_HEADER_SIZE) ∧
    (encodeFrame trivCodecs AUDIO_ONLY_REQUEST POS_SEQUENCE JSON_SERIAL
        GZIP_COMP 5 [1, 2]).get? 1
        = some ((AUDIO_ONLY_REQUEST <<< 4) ||| POS_SEQUENCE) ∧
    (encodeFrame trivCodecs AUDIO_ONLY_REQUEST POS_SEQUENCE JSON_SERIAL
        GZIP_COMP 5 [1, 2]).get? 2
        = some ((JSON_SERIAL <<< 4) ||| GZIP_COMP) ∧
    (encodeFrame trivCodecs AUDIO_ONLY_REQUEST POS_SEQUENCE JSON_SERIAL
        GZIP_COMP 5 [1, 2]).get? 3 = some 0 ∧
    (POS_SEQUENCE % 2 = 1 → intFromBytesSigned
        (((encodeFrame trivCodecs AUDIO_ONLY_REQUEST POS_SEQUENCE JSON_SERIAL
          GZIP_COMP 5 [1, 2]).drop 4).take 4) = 5) :=
  c3_header_layout trivCodecs AUDIO_ONLY_REQUEST POS_SEQUENCE JSON_SERIAL
    GZIP_COMP (by decide) (by decide) (by decide) (by decide)
    5 (by decide) (by decide) [1, 2]

/-- C5 counterexample: the claim's generalization to every truncated or
malformed buffer is false. The 4-byte buffer [0x11, 0x90, 0x00, 0x00] is a
truncated FullServerResponse frame (its size field and payload are
missing entirely), yet the decoder succeeds instead of failing: Python
slices silently truncate and int.from_bytes accepts the empty slice, so
_parse_response returns a dict with payload_size 0 and an empty payload. -/
theorem c5_counterexample :
    parse_response trivCodecs [17, 144, 0, 0]
      = some ⟨false, none, none, none, PMsg.bytes [], 0⟩ ∧
    parse_response trivCodecs [17, 144, 0, 0] ≠ none := by
  refine ⟨by decide, by decide⟩

/-- C5 (amended): any input buffer shorter than 4 bytes makes the frame
decoder fail with no partial result (Python raises IndexError at the
header reads; the repository defines no dedicated error class, decode
failure is modelled as `none`). Buffers of at least 4 bytes do not fail in
general even when truncated or malformed (see the counterexample). -/
theorem c5_short_buffer_fails {J : Type} (C : Codecs J) (res : List Nat)
    (h : res.length < 4) : parse_response C res = none := by
  rcases res with _ | ⟨a, _ | ⟨b, _ | ⟨c, _ | ⟨d, rest⟩⟩⟩⟩
  · rfl
  · rfl
  · rfl
  · rfl
  · simp at h
    omega

/-- C5 witness: the short-buffer theorem evaluated on the 3-byte buffer
[0, 1, 2]. -/
theorem c5_short_buffer_witness : parse_response trivCodecs [0, 1, 2] = none :=
  c5_short_buffer_fails trivCodecs [0, 1, 2] (by decide)

theorem len_append4 (l1 l2 : List Nat) (h : l1.length = 4) :
    (l1 ++ l2).length = 4 + l2.length := by simp [h]

theorem drop8_append (l1 l2 l3 : List Nat) (h1 : l1.length = 4)
    (h2 : l2.length = 4) : ((l1 ++ (l2 ++ l3)).drop 8) = l3 := by
  have : (8 : Nat) = 4 + 4 := by omega
  rw [this, ← List.drop_drop, drop4_append _ _ h1, drop4_append _ _ h2]

theorem take4_of_drop4_append (l1 l2 l3 : List Nat) (h1 : l1.length = 4)
    (h2 : l2.length = 4) : (((l1 ++ (l2 ++ l3)).drop 4).take 4) = l2 := by
  rw [drop4_append _ _ h1, take4_append _ _ h2]

/-- C4 counterexample: the claim says a FullServerResponse carries a 4-byte
unsigned payload-size, but line 207 of stt.py reads that field with
signed=True. On the frame whose size field is 0xFFFFFFFF the decoder
reports payload_size -1, not 4294967295. -/
theorem c4_counterexample :
    (parse_response trivCodecs [17, 144, 0, 0, 255, 255, 255, 255]).map
        ParseResult.payload_size = some (-1) ∧
    some (-1 : Int) ≠ some (4294967295 : Int) := by
  refine ⟨by decide, by decide⟩

/-- C4 (amended): the decoder branches on message type as claimed, except
that the FullServerResponse payload-size is read as a signed 4-byte
integer. In full: a FullServerResponse body is a 4-byte signed
payload-size then the payload; a ServerAck body is a 4-byte signed
sequence echo and, when at least 8 bytes are present, a 4-byte unsigned
payload-size then payload bytes (fewer than 8 bytes make the decoder
raise); a ServerErrorResponse body is a 4-byte unsigned error code, a
4-byte unsigned payload-size, then the payload; and gzip decompression
followed by json deserialization is applied last, in that order, shown by
a frame whose payload is compress(dumps j) decoding to the json value j. -/
theorem c4_branch_layout {J : Type} (C : Codecs J)
    (hD : ∀ bs, C.decompress (C.compress bs) = some bs)
    (hL : ∀ j, C.loads (C.dumps j) = some j)
    (se sz cd pb rest : List Nat) (j : J)
    (h1 : se.length = 4) (h2 : sz.length = 4) (h3 : cd.length = 4)
    (h4 : rest.length < 4) :
    parse_response C (generate_header FULL_SERVER_RESPONSE NO_SEQUENCE
        NO_SERIALIZATION NO_COMPRESSION 0 ++ (sz ++ pb))
      = some ⟨false, none, none, none, PMsg.bytes pb, intFromBytesSigned sz⟩ ∧
    parse_response C (generate_header SERVER_ACK NO_SEQUENCE
        NO_SERIALIZATION NO_COMPRESSION 0 ++ (se ++ (sz ++ pb)))
      = some ⟨false, none, some (intFromBytesSigned se), none, PMsg.bytes pb,
          (beVal sz : Int)⟩ ∧
    parse_response C (generate_header SERVER_ACK NO_SEQUENCE
        NO_SERIALIZATION NO_COMPRESSION 0 ++ (se ++ rest)) = none ∧
    parse_response C (generate_header SERVER_ERROR_RESPONSE NO_SEQUENCE
        NO_SERIALIZATION NO_COMPRESSION 0 ++ (cd ++ (sz ++ pb)))
      = some ⟨false, none, none, some (beVal cd), PMsg.bytes pb,
          (beVal sz : Int)⟩ ∧
    parse_response C (generate_header FULL_SERVER_RESPONSE NO_SEQUENCE
        JSON_SERIAL GZIP_COMP 0 ++ (sz ++ C.compress (C.dumps j)))
      = some ⟨false, none, none, none, PMsg.json j, intFromBytesSigned sz⟩ := by
  refine ⟨?_, ?_, ?_, ?_, ?_⟩ <;>
    simp [parse_response, generate_header, branchFields, decompressStep,
      deserializeStep, hD, hL, take4_append _ _ h1, drop4_append _ _ h1,
      take4_append _ _ h2, drop4_append _ _ h2, take4_append _ _ h3,
      drop4_append _ _ h3, drop8_append _ _ _ h1 h2, drop8_append _ _ _ h3 h2,
      take4_of_drop4_append _ _ _ h1 h2, take4_of_drop4_append _ _ _ h3 h2,
      len_append4 _ _ h1, len_append4 _ _ h2, len_append4 _ _ h3,
      FULL_SERVER_RESPONSE, SERVER_ACK, SERVER_ERROR_RESPONSE, NO_SEQUENCE,
      GZIP_COMP, JSON_SERIAL, NO_SERIALIZATION, NO_COMPRESSION, PROTOCOL_VERSION,
      (show (8:Nat) ≤ 4 + (4 + pb.length) by omega),
      (show ¬ ((8:Nat) ≤ 4 + rest.length) by omega),
      (show (8:Nat) ≤ 4 + (4 + (C.compress (C.dumps j)).length) by omega)]

/-- C4 witness: the branch-layout theorem evaluated at concrete field
bytes under the identity codec instance. -/
theorem c4_branch_layout_witness :
    parse_response trivCodecs (generate_header FULL_SERVER_RESPONSE NO_SEQUENCE
        NO_SERIALIZATION NO_COMPRESSION 0 ++ ([0, 0, 0, 2] ++ [7, 8]))
      = some ⟨false, none, none, none, PMsg.bytes [7, 8],
          intFromBytesSigned [0, 0, 0, 2]⟩ ∧
    parse_response trivCodecs (generate_header SERVER_ACK NO_SEQUENCE
        NO_SERIALIZATION NO_COMPRESSION 0 ++ ([0, 0, 0, 9] ++ ([0, 0, 0, 2] ++ [7, 8])))
      = some ⟨false, none, some (intFromBytesSigned [0, 0, 0, 9]), none,
          PMsg.bytes [7, 8], (beVal [0, 0, 0, 2] : Int)⟩ ∧
    parse_response trivCodecs (generate_header SERVER_ACK NO_SEQUENCE
        NO_SERIALIZATION NO_COMPRESSION 0 ++ ([0, 0, 0, 9] ++ [1, 2, 3])) = none ∧
    parse_response trivCodecs (generate_header SERVER_ERROR_RESPONSE NO_SEQUENCE
        NO_SERIALIZATION NO_COMPRESSION 0 ++ ([0, 0, 1, 4] ++ ([0, 0, 0, 2] ++ [7, 8])))
      = some ⟨false, none, none, some (beVal [0, 0, 1, 4]), PMsg.bytes [7, 8],
          (beVal [0, 0, 0, 2] : Int)⟩ ∧
    parse_response trivCodecs (generate_header FULL_SERVER_RESPONSE NO_SEQUENCE
        JSON_SERIAL GZIP_COMP 0 ++ ([0, 0, 0, 2] ++
          trivCodecs.compress (trivCodecs.dumps [5, 6])))
      = some ⟨false, none, none, none, PMsg.json [5, 6],
          intFromBytesSigned [0, 0, 0, 2]⟩ :=
  c4_branch_layout trivCodecs (fun _ => rfl) (fun _ => rfl)
    [0, 0, 0, 9] [0, 0, 0, 2] [0, 0, 1, 4] [7, 8] [1, 2, 3] [5, 6]
    rfl rfl rfl (by decide)

/-- Message-type nibble of a received buffer (res[1] >> 4). -/
def mtOf (res : List Nat) : Nat := (res.getD 1 0) / 16

/-- The body bytes remaining after the header and the optional leading
sequence field, as _parse_response slices them. -/
def bodyAfterSeq (res : List Nat) : List Nat :=
  let p := res.drop ((res.headD 0 % 16) * 4)
  if (res.getD 1 0) % 16 % 2 = 1 then p.drop 4 else p

theorem branchFields_eq_none (mt : Nat) (p : List Nat)
    (h9 : mt ≠ FULL_SERVER_RESPONSE) (h11 : mt ≠ SERVER_ACK)
    (h15 : mt ≠ SERVER_ERROR_RESPONSE) : branchFields mt p = none := by
  simp [branchFields, h9, h11, h15]

theorem branchFields_ack_length (p : List Nat)
    (x : Int × List Nat × Option Int × Option Nat)
    (h : branchFields SERVER_ACK p = some x) : 8 ≤ p.length := by
  by_contra hlt
  simp [branchFields, SERVER_ACK, FULL_SERVER_RESPONSE, hlt] at h

/-- C9: the frame decoder returns normally only when the message-type
nibble is one of the three server codes (FullServerResponse 0b1001,
ServerAck 0b1011, ServerErrorResponse 0b1111), with ServerAck additionally
requiring at least 8 bytes after the header and the optional leading
sequence; for every other message-type code, including the client codes
FullClientRequest 0b0001 and AudioOnlyRequest 0b0010, the payload
variables are never assigned and the decoder raises (returns none) instead
of producing a parsed frame. -/
theorem c9_decoder_server_types_only :
    (∀ (J : Type) (C : Codecs J) (res : List Nat) (r : ParseResult J),
        parse_response C res = some r →
        (mtOf res = FULL_SERVER_RESPONSE ∨ mtOf res = SERVER_ACK ∨
          mtOf res = SERVER_ERROR_RESPONSE) ∧
        (mtOf res = SERVER_ACK → 8 ≤ (bodyAfterSeq res).length)) ∧
    (∀ (J : Type) (C : Codecs J) (res : List Nat),
        ¬(mtOf res = FULL_SERVER_RESPONSE ∨ mtOf res = SERVER_ACK ∨
          mtOf res = SERVER_ERROR_RESPONSE) → parse_response C res = none) := by
  constructor
  · intro J C res r h
    rcases res with _ | ⟨b0, _ | ⟨b1, _ | ⟨b2, _ | ⟨b3, rest⟩⟩⟩⟩
    · exact absurd h (by simp [parse_response])
    · exact absurd h (by simp [parse_response])
    · exact absurd h (by simp [parse_response])
    · exact absurd h (by simp [parse_response])
    · have hmt : mtOf (b0 :: b1 :: b2 :: b3 :: rest) = b1 / 16 := rfl
      simp only [parse_response] at h
      constructor
      · by_contra hc
        push_neg at hc
        obtain ⟨n9, n11, n15⟩ := hc
        rw [hmt] at n9 n11 n15
        rw [branchFields_eq_none _ _ n9 n11 n15] at h
        simp at h
      · intro hack
        rw [hmt] at hack
        rw [hack] at h
        rcases hb : branchFields SERVER_ACK
            (if b1 % 16 % 2 = 1 then
              ((b0 :: b1 :: b2 :: b3 :: rest).drop (b0 % 16 * 4)).drop 4
            else (b0 :: b1 :: b2 :: b3 :: rest).drop (b0 % 16 * 4)) with
          _ | x
        · rw [hb] at h
          simp at h
        · have hlen := branchFields_ack_length _ x hb
          simpa [bodyAfterSeq] using hlen
  · intro J C res hmt
    rcases res with _ | ⟨b0, _ | ⟨b1, _ | ⟨b2, _ | ⟨b3, rest⟩⟩⟩⟩
    · rfl
    · rfl
    · rfl
    · rfl
    · push_neg at hmt
      obtain ⟨n9, n11, n15⟩ := hmt
      have hm : mtOf (b0 :: b1 :: b2 :: b3 :: rest) = b1 / 16 := rfl
      rw [hm] at n9 n11 n15
      simp only [parse_response]
      rw [branchFields_eq_none _ _ n9 n11 n15]

/-- C9 witness: the necessary-conditions direction applied to a concrete
successfully parsed ServerAck frame, and the raising direction applied to
a concrete AudioOnlyRequest-typed buffer. -/
theorem c9_decoder_server_types_only_witness :
    ((mtOf [17, 176, 0, 0, 0, 0, 0, 1, 0, 0, 0, 0] = FULL_SERVER_RESPONSE ∨
      mtOf [17, 176, 0, 0, 0, 0, 0, 1, 0, 0, 0, 0] = SERVER_ACK ∨
      mtOf [17, 176, 0, 0, 0, 0, 0, 1, 0, 0, 0, 0] = SERVER_ERROR_RESPONSE) ∧
     (mtOf [17, 176, 0, 0, 0, 0, 0, 1, 0, 0, 0, 0] = SERVER_ACK →
      8 ≤ (bodyAfterSeq [17, 176, 0, 0, 0, 0, 0, 1, 0, 0, 0, 0]).length)) ∧
    parse_response trivCodecs [17, 32, 0, 0, 0, 0, 0, 1] = none := by
  constructor
  · exact c9_decoder_server_types_only.1 (List Nat) trivCodecs
      [17, 176, 0, 0, 0, 0, 0, 1, 0, 0, 0, 0]
      ⟨false, none, some 1, none, PMsg.bytes [], 0⟩ (by decide)
  · exact c9_decoder_server_types_only.2 (List Nat) trivCodecs
      [17, 32, 0, 0, 0, 0, 0, 1] (by decide)

/-! ## Recognition session: sequence counter (stt.py lines 72-134)

SpeechStream keeps a Python int counter self.seq, initialised to 1. The
frames here carry the logical (pre-gzip) payload chunk; compression does
not affect the counter or flags. -/

structure StreamState where
  seq : Int
deriving DecidableEq

structure SentFrame where
  message_type : Nat
  flags : Nat
  seqVal : Int
  chunk : List Nat
deriving DecidableEq

/-- SpeechStream._send_full_client_request (stt.py lines 95-115): sends a
FullClientRequest with PosSequence and the current counter (1 on a fresh
stream), then increments the counter. The JSON config payload is opaque
here and passed in. -/
def send_full_client_request (s : StreamState) (config : List Nat) :
    SentFrame × StreamState :=
  (⟨FULL_CLIENT_REQUEST, POS_SEQUENCE, s.seq, config⟩, ⟨s.seq + 1⟩)

/-- SpeechStream._send_audio_chunk (stt.py lines 124-134): an
AudioOnlyRequest with PosSequence and the current counter (incrementing it
afterwards), or, when is_last, NegWithSequence with the negated counter
and no increment. -/
def send_audio_chunk (s : StreamState) (chunk : List Nat) (is_last : Bool) :
    SentFrame × StreamState :=
  let flags := if is_last then NEG_WITH_SEQUENCE else POS_SEQUENCE
  let sq := if is_last then -s.seq else s.seq
  (⟨AUDIO_ONLY_REQUEST, flags, sq, chunk⟩,
   ⟨if is_last then s.seq else s.seq + 1⟩)

/-- push_audio (stt.py lines 117-119) forwards the frame bytes as a
non-final chunk. -/
def push_audio (s : StreamState) (chunk : List Nat) : SentFrame × StreamState :=
  send_audio_chunk s chunk false

/-- flush (stt.py lines 121-122) sends the empty final chunk. -/
def flushAudio (s : StreamState) : SentFrame × StreamState :=
  send_audio_chunk s [] true

def runPushes (s : StreamState) : List (List Nat) → List SentFrame × StreamState
  | [] => ([], s)
  | c :: cs =>
    let (f, s') := push_audio s c
    let (fs, s'') := runPushes s' cs
    (f :: fs, s'')

/-- One full recognition send session: open (the FullClientRequest), a
sequence of push_audio calls, then one flush, starting from the
freshly-constructed counter value 1. -/
def runSession (config : List Nat) (chunks : List (List Nat)) :
    List SentFrame × StreamState :=
  let (f0, s1) := send_full_client_request ⟨1⟩ config
  let (fs, s2) := runPushes s1 chunks
  let (ff, s3) := flushAudio s2
  (f0 :: fs ++ [ff], s3)


theorem runPushes_map_seq (cs : List (List Nat)) : ∀ (k : Int),
    (runPushes ⟨k⟩ cs).1.map SentFrame.seqVal
      = (List.range cs.length).map (fun (i : Nat) => k + (i : Int)) := by
  induction cs with
  | nil => intro k; simp [runPushes]
  | cons c cs ih =>
      intro k
      have h2 : ((fun (i : Nat) => k + (i : Int)) ∘ Nat.succ)
          = fun (i : Nat) => (k + 1) + (i : Int) := by
        funext i
        simp [Function.comp]
        ring
      simp [runPushes, push_audio, send_audio_chunk, List.range_succ_eq_map,
        List.map_map, h2, ih (k + 1)]

theorem runPushes_final_seq (cs : List (List Nat)) : ∀ (k : Int),
    (runPushes ⟨k⟩ cs).2.seq = k + cs.length := by
  induction cs with
  | nil => intro k; simp [runPushes]
  | cons c cs ih =>
      intro k
      simp [runPushes, push_audio, send_audio_chunk, ih (k + 1)]
      ring

theorem runPushes_types (cs : List (List Nat)) : ∀ (k : Int),
    ((runPushes ⟨k⟩ cs).1.all
      (fun f => f.message_type == AUDIO_ONLY_REQUEST && f.flags == POS_SEQUENCE))
      = true := by
  induction cs with
  | nil => intro k; simp [runPushes]
  | cons c cs ih =>
      intro k
      have h := ih (k + 1)
      simp [AUDIO_ONLY_REQUEST, POS_SEQUENCE] at h
      simp [runPushes, push_audio, send_audio_chunk, AUDIO_ONLY_REQUEST,
        POS_SEQUENCE]
      exact h

theorem getLast?_cons_concat (a b : SentFrame) (l : List SentFrame) :
    (a :: (l ++ [b])).getLast? = some b := by
  rw [← List.cons_append, List.getLast?_concat]

theorem tail_dropLast_cons_concat (a b : SentFrame) (l : List SentFrame) :
    ((a :: (l ++ [b])).drop 1).dropLast = l := by
  simp [List.dropLast_concat]

/-- C2: in a session of open(), then push_audio calls, then one flush, the
sequence numbers sent on the non-flush frames are exactly 1, 2, ..., n + 1
(strictly increasing positive integers starting at 1, the opening
FullClientRequest carrying 1 and each push carrying the counter before its
increment), the middle frames are all AudioOnlyRequest with PosSequence,
and the flush frame is an AudioOnlyRequest with empty payload,
NegWithSequence, and sequence equal to the negation of the current
not-yet-incremented counter n + 2, which stays n + 2 afterwards. -/
theorem c2_sequence_numbers (config : List Nat) (chunks : List (List Nat)) :
    ((runSession config chunks).1.map SentFrame.seqVal
      = (List.range (chunks.length + 1)).map (fun (i : Nat) => (i : Int) + 1)
          ++ [-((chunks.length : Int) + 2)]) ∧
    (runSession config chunks).1.head?
      = some ⟨FULL_CLIENT_REQUEST, POS_SEQUENCE, 1, config⟩ ∧
    (runSession config chunks).1.getLast?
      = some ⟨AUDIO_ONLY_REQUEST, NEG_WITH_SEQUENCE,
          -((chunks.length : Int) + 2), []⟩ ∧
    (((runSession config chunks).1.drop 1).dropLast.all
      (fun f => f.message_type == AUDIO_ONLY_REQUEST && f.flags == POS_SEQUENCE))
      = true ∧
    (runSession config chunks).2.seq = (chunks.length : Int) + 2 := by
  have hmap := runPushes_map_seq chunks 2
  have hfin := runPushes_final_seq chunks 2
  have h2 : ((fun (i : Nat) => (i : Int) + 1) ∘ Nat.succ)
      = fun (i : Nat) => 2 + (i : Int) := by
    funext i
    push_cast [Function.comp]
    ring
  refine ⟨?_, ?_, ?_, ?_, ?_⟩
  · simp [runSession, send_full_client_request, flushAudio, send_audio_chunk,
      List.range_succ_eq_map, List.map_map, h2, hmap, hfin]
    ring
  · simp [runSession, send_full_client_request, flushAudio, send_audio_chunk]
  · simp [runSession, send_full_client_request, flushAudio, send_audio_chunk,
      getLast?_cons_concat, hfin]
    ring
  · have h := runPushes_types chunks 2
    simp [AUDIO_ONLY_REQUEST, POS_SEQUENCE] at h
    simp [runSession, send_full_client_request, flushAudio, send_audio_chunk,
      tail_dropLast_cons_concat, AUDIO_ONLY_REQUEST, POS_SEQUENCE]
    exact h
  · simp [runSession, send_full_client_request, flushAudio, send_audio_chunk,
      hfin]
    ring

/-! ## Recognition session: run() event loop (stt.py lines 136-164)

Each received frame contributes a decoded transcript text and the
is_last_package flag; run() folds them over the speaking flag (initially
False) and emits speech events. -/

inductive SpeechEvent where
  | startOfSpeech
  | interimTranscript
  | finalTranscript
  | endOfSpeech
deriving DecidableEq

/-- One iteration of SpeechStream.run (stt.py lines 140-164) on a frame
whose decoded text is `text` and whose terminal flag is `is_final`: when
text is non-empty and the session is not speaking, StartOfSpeech is
emitted and the flag set; a transcript event (final or interim) follows
any non-empty text; afterwards, a terminal frame while speaking emits
EndOfSpeech and clears the flag. -/
def runStep (speaking : Bool) (text : String) (is_final : Bool) :
    Bool × List SpeechEvent :=
  let sp1 := if text ≠ "" then true else speaking
  let evs1 : List SpeechEvent :=
    if text ≠ "" then
      (if speaking then [] else [SpeechEvent.startOfSpeech]) ++
        [if is_final then SpeechEvent.finalTranscript
         else SpeechEvent.interimTranscript]
    else []
  if is_final && sp1 then (false, evs1 ++ [SpeechEvent.endOfSpeech])
  else (sp1, evs1)

def runEvents : Bool → List (String × Bool) → Bool × List SpeechEvent
  | sp, [] => (sp, [])
  | sp, (t, f) :: rest =>
    let (sp', evs) := runStep sp t f
    let (spE, evsR) := runEvents sp' rest
    (spE, evs ++ evsR)

/-- Span-structure checker: scans an event list tracking whether a
[StartOfSpeech, EndOfSpeech] span is open; transcripts are legal only
inside a span, StartOfSpeech only outside (no nesting or overlap),
EndOfSpeech only inside. Returns the final open-span state, or none on a
violation. -/
def spanCheck : Bool → List SpeechEvent → Option Bool
  | inS, [] => some inS
  | inS, SpeechEvent.startOfSpeech :: r =>
    if inS then none else spanCheck true r
  | inS, SpeechEvent.endOfSpeech :: r =>
    if inS then spanCheck false r else none
  | inS, SpeechEvent.interimTranscript :: r =>
    if inS then spanCheck true r else none
  | inS, SpeechEvent.finalTranscript :: r =>
    if inS then spanCheck true r else none

theorem spanCheck_append (a b : List SpeechEvent) : ∀ (s : Bool),
    spanCheck s (a ++ b) = match spanCheck s a with
      | none => none
      | some s' => spanCheck s' b := by
  induction a with
  | nil => intro s; simp [spanCheck]
  | cons e r ih =>
      intro s
      cases e <;> cases s <;> simp [spanCheck, ih]

theorem runStep_spanCheck (sp : Bool) (t : String) (f : Bool) :
    spanCheck sp (runStep sp t f).2 = some (runStep sp t f).1 := by
  by_cases ht : t = "" <;> cases sp <;> cases f <;>
    simp [runStep, spanCheck, ht]

theorem runEvents_spanCheck (frames : List (String × Bool)) : ∀ (sp : Bool),
    spanCheck sp (runEvents sp frames).2 = some (runEvents sp frames).1 := by
  induction frames with
  | nil => intro sp; simp [runEvents, spanCheck]
  | cons p rest ih =>
      intro sp
      obtain ⟨t, f⟩ := p
      simp only [runEvents]
      rw [spanCheck_append, runStep_spanCheck sp t f]
      exact ih (runStep sp t f).1

/-- C6: for every sequence of decoded frames, the event stream produced by
run() starting in the initial non-speaking state passes the span checker
from the closed state: every Interim/FinalTranscript lies inside a
[StartOfSpeech, EndOfSpeech] span, spans are opened only when closed and
closed only when open (never nested or overlapping), and the checker's
final state is the session speaking flag. Moreover a terminal frame with
empty text, received while speaking, still emits exactly EndOfSpeech and
clears the flag. -/
theorem c6_event_ordering (frames : List (String × Bool)) :
    spanCheck false (runEvents false frames).2
      = some (runEvents false frames).1 ∧
    runStep true "" true = (false, [SpeechEvent.endOfSpeech]) := by
  exact ⟨runEvents_spanCheck frames false, by decide⟩

/-! ## One-shot synthesis session (tts.py ChunkedStream._run, lines 237-276) -/

/-- Modelled from the spec: livekit.agents.utils.audio.AudioByteStream, used
by tts.py but living in the livekit-agents package that is not under src.
Per the spec it is a byte-stream buffer that accumulates raw audio bytes
across frames and slices them into fixed-size output frames, carrying any
partial frame across reads; flush emits the buffered remainder as one
possibly-short final frame. -/
structure AudioByteStream where
  frame_bytes : Nat
  buf : List Nat
deriving DecidableEq

def sliceFramesAux : Nat → Nat → List Nat → List (List Nat) × List Nat
  | 0, _, buf => ([], buf)
  | fuel + 1, n, buf =>
    if 0 < n ∧ n ≤ buf.length then
      let p := sliceFramesAux fuel n (buf.drop n)
      (buf.take n :: p.1, p.2)
    else ([], buf)

def sliceFrames (n : Nat) (buf : List Nat) : List (List Nat) × List Nat :=
  sliceFramesAux buf.length n buf

/-- Modelled from the spec: AudioByteStream.write appends the incoming
bytes to the buffer and emits every complete fixed-size frame, keeping the
remainder buffered. -/
def absWrite (s : AudioByteStream) (data : List Nat) :
    List (List Nat) × AudioByteStream :=
  let p := sliceFrames s.frame_bytes (s.buf ++ data)
  (p.1, ⟨s.frame_bytes, p.2⟩)

/-- Modelled from the spec: AudioByteStream.flush emits any buffered
remainder as one final (possibly short) frame and empties the buffer. -/
def absFlush (s : AudioByteStream) : List (List Nat) × AudioByteStream :=
  (if s.buf = [] then [] else [s.buf], ⟨s.frame_bytes, []⟩)

inductive WsMsg where
  | text (s : String)
  | binary (b : List Nat)
deriving DecidableEq

/-- How the blocking receive finally fails once the listed messages are
exhausted: a timeout, an orderly socket closure (ConnectionClosedOK, an
Exception in Python), or any other transport exception. -/
inductive RecvEnd where
  | timeout
  | closedOk
  | otherError
deriving DecidableEq

inductive ApiError where
  | apiTimeout
  | apiConnection
deriving DecidableEq

inductive RunOutcome where
  | completed
  | raised (e : ApiError)
deriving DecidableEq

/-- The receive loop of ChunkedStream._run (tts.py lines 261-271): string
messages are skipped, binary messages go through the byte-stream buffer
and every produced frame is emitted. There is no branch that leaves the
loop normally. -/
def chunked_recv_loop (s : AudioByteStream) :
    List WsMsg → List (List Nat) × AudioByteStream
  | [] => ([], s)
  | WsMsg.text _ :: rest => chunked_recv_loop s rest
  | WsMsg.binary b :: rest =>
    let p := absWrite s b
    let q := chunked_recv_loop p.2 rest
    (p.1 ++ q.1, q.2)

/-- ChunkedStream._run (tts.py lines 237-276): after the config send, the
unconditional receive loop runs until recv raises; asyncio.TimeoutError is
re-raised as APITimeoutError and every other exception — including an
orderly close — as APIConnectionError (lines 273-276). The buffered
remainder is never flushed: the loop has no normal exit on which a flush
could run. -/
def chunked_run (frame_bytes : Nat) (msgs : List WsMsg) (endE : RecvEnd) :
    List (List Nat) × AudioByteStream × RunOutcome :=
  let p := chunked_recv_loop ⟨frame_bytes, []⟩ msgs
  (p.1, p.2,
    RunOutcome.raised (match endE with
      | RecvEnd.timeout => ApiError.apiTimeout
      | _ => ApiError.apiConnection))

theorem sliceFramesAux_spec : ∀ (fuel n : Nat) (buf : List Nat),
    ((sliceFramesAux fuel n buf).1.flatten ++ (sliceFramesAux fuel n buf).2 = buf) ∧
    (((sliceFramesAux fuel n buf).1.all (fun f => f.length == n)) = true) := by
  intro fuel
  induction fuel with
  | zero => intro n buf; simp [sliceFramesAux]
  | succ fuel ih =>
      intro n buf
      by_cases h : 0 < n ∧ n ≤ buf.length
      · have hj := (ih n (buf.drop n)).1
        have ha := (ih n (buf.drop n)).2
        constructor
        · simp only [sliceFramesAux, if_pos h, List.flatten_cons,
            List.append_assoc, hj]
          exact List.take_append_drop n buf
        · simp only [sliceFramesAux, if_pos h, List.all_cons, ha, Bool.and_true]
          simp [List.length_take, Nat.min_eq_left h.2]
      · constructor <;> simp [sliceFramesAux, if_neg h]

/-- The binary bytes of a message list, in arrival order. -/
def binBytes : List WsMsg → List Nat
  | [] => []
  | WsMsg.text _ :: r => binBytes r
  | WsMsg.binary b :: r => b ++ binBytes r

theorem chunked_recv_loop_spec (msgs : List WsMsg) : ∀ (s : AudioByteStream),
    ((chunked_recv_loop s msgs).1.flatten ++ (chunked_recv_loop s msgs).2.buf
      = s.buf ++ binBytes msgs) ∧
    ((chunked_recv_loop s msgs).2.frame_bytes = s.frame_bytes) ∧
    (((chunked_recv_loop s msgs).1.all
      (fun f => f.length == s.frame_bytes)) = true) := by
  induction msgs with
  | nil => intro s; simp [chunked_recv_loop, binBytes]
  | cons m rest ih =>
      intro s
      cases m with
      | text t =>
          simpa [chunked_recv_loop, binBytes] using ih s
      | binary b =>
          have hw := sliceFramesAux_spec (s.buf ++ b).length s.frame_bytes
            (s.buf ++ b)
          have hrec := ih ⟨s.frame_bytes,
            (sliceFramesAux (s.buf ++ b).length s.frame_bytes (s.buf ++ b)).2⟩
          refine ⟨?_, ?_, ?_⟩
          · simp only [chunked_recv_loop, absWrite, sliceFrames,
              List.flatten_append, List.append_assoc, hrec.1]
            simp only [← List.append_assoc, hw.1]
            simp [binBytes]
          · simpa [chunked_recv_loop, absWrite, sliceFrames] using hrec.2.1
          · simp only [chunked_recv_loop, absWrite, sliceFrames,
              List.all_append]
            rw [hw.2, hrec.2.2]
            simp

/-- C7 counterexample: with a frame size of 2 bytes, the single binary
message [1,2,3] produces only the full frame [1,2]; the remainder byte [3]
stays in the buffer at stream end and is never emitted, because
ChunkedStream._run never calls flush on the byte-stream buffer — contrary
to the claim, which requires a final short frame [3]. -/
theorem c7_counterexample :
    (chunked_run 2 [WsMsg.binary [1, 2, 3]] RecvEnd.closedOk).1 = [[1, 2]] ∧
    (chunked_run 2 [WsMsg.binary [1, 2, 3]] RecvEnd.closedOk).2.1.buf = [3] ∧
    [[1, 2]] ≠ ([[1, 2], [3]] : List (List Nat)) := by
  refine ⟨by decide, by decide, by decide⟩

/-- C7 (amended): the one-shot synthesis receive loop reassembles received
binary bytes into fixed-size frames through the byte-stream buffer,
carrying partial frames across reads: every emitted frame has exactly the
fixed byte count, and the emitted frames joined with the final buffered
remainder are exactly the received binary bytes in order. However, at
stream end the remainder is NOT flushed: the run emits exactly what the
loop emitted, and the buffered remainder is discarded when the loop exits
by raising. -/
theorem c7_reassembly (fb : Nat) (msgs : List WsMsg) (endE : RecvEnd) :
    ((chunked_run fb msgs endE).1.flatten ++ (chunked_run fb msgs endE).2.1.buf
      = binBytes msgs) ∧
    (((chunked_run fb msgs endE).1.all (fun f => f.length == fb)) = true) ∧
    (chunked_run fb msgs endE).1 = (chunked_recv_loop ⟨fb, []⟩ msgs).1 := by
  have h := chunked_recv_loop_spec msgs ⟨fb, []⟩
  exact ⟨by simpa [chunked_run] using h.1, by simpa [chunked_run] using h.2.2, rfl⟩

/-- C10: the one-shot synthesis receive loop has no normal-termination
branch: for every received message list and every way the blocking receive
finally fails, the call ends by raising — APITimeoutError on
asyncio.TimeoutError and APIConnectionError on every other exception,
including an orderly socket closure — and never completes normally. -/
theorem c10_always_raises (fb : Nat) (msgs : List WsMsg) (endE : RecvEnd) :
    (chunked_run fb msgs endE).2.2
      = RunOutcome.raised (if endE = RecvEnd.timeout then ApiError.apiTimeout
          else ApiError.apiConnection) ∧
    (chunked_run fb msgs endE).2.2 ≠ RunOutcome.completed := by
  cases endE <;> simp [chunked_run]

/-! ## Streaming synthesis session (tts.py SynthesizeStream._run, lines
385-415)

One loop iteration (an epoch) acquires a pooled connection, runs the three
tasks gathered and raced against the reconnect event, and always releases
the connection in the finally block. The epoch body outcome is the result
of the asyncio.wait race: either the gather future finished first (with or
without a stored task exception), the reconnect event fired first, or the
whole coroutine was cancelled at the await. asyncio.wait never raises the
tasks' exceptions, it only returns them inside completed futures, and the
code breaks without calling result() on the gather future, so a task
exception is dropped. asyncio.CancelledError is a BaseException and passes
the except-Exception clause. -/

inductive PyExc where
  | timeoutError
  | otherError
deriving DecidableEq

inductive AcquireRes where
  | ok (c : Nat)
  | fail (e : PyExc)
deriving DecidableEq

inductive EpochBody where
  | tasksCompleted
  | taskFailed (e : PyExc)
  | reconnectSignal
  | cancelled
deriving DecidableEq

structure EpochInput where
  acquire : AcquireRes
  body : EpochBody
deriving DecidableEq

inductive LoopExit where
  | normalReturn
  | raisedTimeout
  | raisedConnection
  | cancelled
  | pending
deriving DecidableEq

/-- except asyncio.TimeoutError -> APITimeoutError, except Exception ->
APIConnectionError (tts.py lines 409-412). -/
def mapExc : PyExc → LoopExit
  | PyExc.timeoutError => LoopExit.raisedTimeout
  | PyExc.otherError => LoopExit.raisedConnection

/-- One epoch of SynthesizeStream._run. Returns the connections released
by the finally block, the value of the (never reset) ws variable
afterwards, and the loop exit, `none` meaning continue with the next
epoch. On acquire failure the stale previous ws, if any, is released
again; with a connection, the finally block releases it on every body
outcome: break on natural completion, break with the task exception
swallowed on a task failure, continue on the reconnect signal, and
propagation of CancelledError (uncaught by except Exception) on
cancellation. -/
def synth_run_step (prevWs : Option Nat) (inp : EpochInput) :
    List Nat × Option Nat × Option LoopExit :=
  match inp.acquire with
  | AcquireRes.fail e =>
    ((match prevWs with | some c => [c] | none => []), prevWs, some (mapExc e))
  | AcquireRes.ok c =>
    match inp.body with
    | EpochBody.tasksCompleted => ([c], some c, some LoopExit.normalReturn)
    | EpochBody.taskFailed _ => ([c], some c, some LoopExit.normalReturn)
    | EpochBody.reconnectSignal => ([c], some c, none)
    | EpochBody.cancelled => ([c], some c, some LoopExit.cancelled)

def synth_run_loop : Option Nat → List EpochInput →
    List Nat × LoopExit
  | _, [] => ([], LoopExit.pending)
  | prev, inp :: rest =>
    let s := synth_run_step prev inp
    match s.2.2 with
    | some e => (s.1, e)
    | none =>
      let q := synth_run_loop s.2.1 rest
      (s.1 ++ q.1, q.2)

def synth_run (inps : List EpochInput) : List Nat × LoopExit :=
  synth_run_loop none inps

/-- C8 counterexample: an epoch whose gather future completes with a task
exception (a transport error inside one of the three tasks, reconnect not
set) does not surface APIConnectionError or APITimeoutError: asyncio.wait
stores the exception in the done future, the code never retrieves it and
breaks, so the run loop exits normally — contradicting the claim that any
task exception surfaces as one of the two errors. The leased connection 0
is still released. -/
theorem c8_counterexample :
    synth_run [⟨AcquireRes.ok 0, EpochBody.taskFailed PyExc.otherError⟩]
      = ([0], LoopExit.normalReturn) ∧
    LoopExit.normalReturn ≠ LoopExit.raisedConnection ∧
    LoopExit.normalReturn ≠ LoopExit.raisedTimeout := by
  refine ⟨by decide, by decide, by decide⟩

/-- C8 (amended): on every exit of an epoch of the streaming synthesis run
loop — natural completion of the three tasks, a task failure, the
reconnect signal, or cancellation — the finally block releases exactly the
leased connection; an acquire failure maps to APITimeoutError on
asyncio.TimeoutError and APIConnectionError on any other exception (and
re-releases the stale previous connection, since ws is never reset);
natural completion and task failure both exit the loop normally — task
exceptions are swallowed by the wait/break pattern, not surfaced;
cancellation propagates past the except clauses but still releases. -/
theorem c8_release_and_errors (prev : Option Nat) (c : Nat)
    (b : EpochBody) (e : PyExc) (rest : List EpochInput) :
    (synth_run_step prev ⟨AcquireRes.ok c, b⟩).1 = [c] ∧
    (synth_run_loop prev (⟨AcquireRes.ok c, b⟩ :: rest)).1.head? = some c ∧
    (synth_run_step prev ⟨AcquireRes.ok c, EpochBody.tasksCompleted⟩).2.2
      = some LoopExit.normalReturn ∧
    (synth_run_step prev ⟨AcquireRes.ok c, EpochBody.taskFailed e⟩).2.2
      = some LoopExit.normalReturn ∧
    (synth_run_step prev ⟨AcquireRes.ok c, EpochBody.reconnectSignal⟩).2.2
      = none ∧
    (synth_run_step prev ⟨AcquireRes.ok c, EpochBody.cancelled⟩).2.2
      = some LoopExit.cancelled ∧
    (synth_run_step prev ⟨AcquireRes.fail PyExc.timeoutError, b⟩).2.2
      = some LoopExit.raisedTimeout ∧
    (synth_run_step prev ⟨AcquireRes.fail PyExc.otherError, b⟩).2.2
      = some LoopExit.raisedConnection ∧
    (synth_run_step prev ⟨AcquireRes.fail e, b⟩).1
      = (match prev with | some c' => [c'] | none => []) := by
  cases b <;> cases e <;> cases prev <;>
    simp [synth_run_step, synth_run_loop, mapExc]
